import Mathlib

set_option linter.unusedVariables false

/-!
Verification of the alert-source configuration and validation engine of the
CRC event simulator (`simulator (1).py`, class `CRCSimulator`).

Embedding conventions:
* Python scalar/JSON values are the inductive `Val` (mutually defined with
  `ValList` for Python lists and `ValObj` for Python dicts with string keys,
  kept in insertion order).
* Python floats are embedded as exact rationals; the decimal string forms
  accepted by `float(...)` are modelled by `pyFloat` (sign, digits, optional
  fraction; exponents, infinities, NaN and embedded underscores are outside
  the model).
* An operation that can raise an uncaught Python exception is embedded as an
  `Option`/`Except`-valued function; `none`/`.error` is the raised exception,
  and the caller that would observe no state change keeps the prior state.
* Each `CRCSimulator` method used by the claims becomes a pure function of an
  explicit registry state `Registry = List (String × Source)`, mirroring the
  `self.alert_sources` dict.
-/

mutual

/-- A Python value as stored in the simulator configuration: strings, ints,
floats (as exact rationals), booleans, lists and dicts. -/
inductive Val where
| vStr : String → Val
| vInt : Int → Val
| vFloat : Rat → Val
| vBool : Bool → Val
| vList : ValList → Val
| vObj : ValObj → Val

/-- A Python list of values. -/
inductive ValList where
| nil : ValList
| cons : Val → ValList → ValList

/-- A Python dict with string keys, entries in insertion order. -/
inductive ValObj where
| nil : ValObj
| cons : String → Val → ValObj → ValObj

end

mutual

/-- Python `==` on values (restricted to same-constructor comparisons; the
simulator only ever compares strings with strings here). -/
def Val.beq : Val → Val → Bool
| .vStr a, .vStr b => a == b
| .vInt a, .vInt b => a == b
| .vFloat a, .vFloat b => a == b
| .vBool a, .vBool b => a == b
| .vList a, .vList b => ValList.beq a b
| .vObj a, .vObj b => ValObj.beq a b
| _, _ => false

/-- Elementwise equality of Python lists. -/
def ValList.beq : ValList → ValList → Bool
| .nil, .nil => true
| .cons a as, .cons b bs => Val.beq a b && ValList.beq as bs
| _, _ => false

/-- Entrywise equality of Python dicts (order-sensitive; the simulator never
compares dicts). -/
def ValObj.beq : ValObj → ValObj → Bool
| .nil, .nil => true
| .cons k a as, .cons k2 b bs => k == k2 && Val.beq a b && ValObj.beq as bs
| _, _ => false

end

instance : BEq Val := ⟨Val.beq⟩

/-- Python `d.get(key)` / `d[key]` lookup. -/
def ValObj.get : ValObj → String → Option Val
| .nil, _ => none
| .cons k v rest, key => if k = key then some v else rest.get key

/-- Python `d[key] = val`: replaces the value in place when the key is
present, otherwise appends a new entry at the end. -/
def ValObj.set : ValObj → String → Val → ValObj
| .nil, key, val => .cons key val .nil
| .cons k v rest, key, val =>
  if k = key then .cons k val rest else .cons k v (rest.set key val)

/-- Python `d.pop(key, None)`: drops the entry with the given key. -/
def ValObj.pop : ValObj → String → ValObj
| .nil, _ => .nil
| .cons k v rest, key => if k = key then rest else .cons k v (rest.pop key)

/-- The keys of a Python dict, in order. -/
def ValObj.keys : ValObj → List String
| .nil => []
| .cons k _ rest => k :: rest.keys

/-- Python truthiness of a value. -/
def Val.truthy : Val → Bool
| .vStr s => s != ""
| .vInt n => n != 0
| .vFloat q => q != 0
| .vBool b => b
| .vList .nil => false
| .vList (.cons _ _) => true
| .vObj .nil => false
| .vObj (.cons _ _ _) => true

/-- Truthiness of `d.get(key)` (absent keys give `None`, which is falsy). -/
def truthyGet (o : ValObj) (k : String) : Bool :=
  match o.get k with
  | none => false
  | some v => v.truthy

/-- A single-quote character, used by Python `repr` of strings. -/
def squote : String := (Char.ofNat 39).toString

/-- Rendering of a Python float by `str`: integral floats print with a
trailing `.0`; other rationals are rendered as `num/den` (Python prints the
shortest round-tripping decimal, which agrees on integral values — the only
float shapes the simulator's own data contains). -/
def ratRepr (q : Rat) : String :=
  if q.den = 1 then toString q.num ++ ".0" else toString q

mutual

/-- Python `repr` of a value (as used inside `str` of a container). -/
def Val.pyRepr : Val → String
| .vStr s => squote ++ s ++ squote
| .vInt n => toString n
| .vFloat q => ratRepr q
| .vBool b => if b then "True" else "False"
| .vList l => "[" ++ ValList.pyReprItems l ++ "]"
| .vObj o => "\x7b" ++ ValObj.pyReprItems o ++ "\x7d"

/-- Comma-separated `repr` of list elements. -/
def ValList.pyReprItems : ValList → String
| .nil => ""
| .cons v .nil => Val.pyRepr v
| .cons v rest => Val.pyRepr v ++ ", " ++ ValList.pyReprItems rest

/-- Comma-separated `repr` of dict entries. -/
def ValObj.pyReprItems : ValObj → String
| .nil => ""
| .cons k v .nil => squote ++ k ++ squote ++ ": " ++ Val.pyRepr v
| .cons k v rest =>
  squote ++ k ++ squote ++ ": " ++ Val.pyRepr v ++ ", " ++ ValObj.pyReprItems rest

end

/-- Python `str` of a value: a string prints as itself, anything else as its
`repr`. -/
def Val.pyStr : Val → String
| .vStr s => s
| .vInt n => toString n
| .vFloat q => ratRepr q
| .vBool b => if b then "True" else "False"
| .vList l => "[" ++ ValList.pyReprItems l ++ "]"
| .vObj o => "\x7b" ++ ValObj.pyReprItems o ++ "\x7d"

/-- Numeric view of a value for Python order comparisons (`bool` is numeric
in Python; strings and containers are not and would raise `TypeError`). -/
def Val.asNum : Val → Option Rat
| .vInt n => some (n : Rat)
| .vFloat q => some q
| .vBool b => some (if b then 1 else 0)
| _ => none

/-- Value of a digit string read left to right. -/
def digitsToNat (cs : List Char) : Nat :=
  cs.foldl (fun acc c => acc * 10 + (c.toNat - 48)) 0

/-- All characters are ASCII digits. -/
def allDigits (cs : List Char) : Bool := cs.all Char.isDigit

/-- Unsigned part of Python `float(...)`: digits with an optional decimal
point, at least one digit overall (`"5"`, `"5."`, `".5"`, `"5.25"`). -/
def parseUnsignedFloat (cs : List Char) : Option Rat :=
  let ip := cs.takeWhile Char.isDigit
  let rest := cs.dropWhile Char.isDigit
  match rest with
  | [] => if ip.isEmpty then none else some ((digitsToNat ip : Nat) : Rat)
  | c :: fp =>
    if c = Char.ofNat 46 then
      if allDigits fp && !(ip.isEmpty && fp.isEmpty) then
        some ((digitsToNat ip : Rat) + (digitsToNat fp : Rat) / ((10 : Rat) ^ fp.length))
      else none
    else none

/-- Python `float(value)` on the decimal forms in the model; `none` is a
raised `ValueError`. -/
def pyFloat (s : String) : Option Rat :=
  match s.data with
  | [] => none
  | c :: cs =>
    if c = Char.ofNat 43 then parseUnsignedFloat cs
    else if c = Char.ofNat 45 then (parseUnsignedFloat cs).map (fun q => -q)
    else parseUnsignedFloat (c :: cs)

/-- One alert source: the value of `self.alert_sources[name]`, a dict with
the fixed keys `fields`, `thresholds`, `settings`, `items`. -/
structure Source where
  fields : List String
  thresholds : ValObj
  settings : ValObj
  items : List ValObj

/-- The registry `self.alert_sources`: source name → source data, in
insertion order. -/
abbrev Registry := List (String × Source)

/-- Membership of a string in a Python list by `==` (`value not in threshold`
in the list-rule branch; non-string elements never equal a string). -/
def ValList.containsStr : ValList → String → Bool
| .nil, _ => false
| .cons v rest, s => Val.beq v (.vStr s) || rest.containsStr s

/-- `", ".join(threshold)` over the rule's elements (Python would raise
`TypeError` on non-string elements; those are rendered via `str` here, a
case the simulator's own rules never hit). -/
def ValList.joinComma : ValList → String
| .nil => ""
| .cons v .nil => Val.pyStr v
| .cons v rest => Val.pyStr v ++ ", " ++ ValList.joinComma rest

/-- The exact-match fallback branch of `validate_field_value`: compares
`str(value)` (the raw string itself) with `str(threshold)`. -/
def exactCheck (field value : String) (threshold : Val) : Except String Bool :=
  if value = threshold.pyStr then .ok true
  else .error (field ++ " must be exactly: " ++ threshold.pyStr ++ ".")

/-- `CRCSimulator.validate_field_value` (simulator (1).py lines 418–447):
range rule when the threshold is a dict containing both `min` and `max`,
enumeration rule when it is a list, exact match otherwise; without any rule
the value must only be non-empty.  `.error` is the raised `ValueError`
message; the range branch's bound comparison against a non-numeric bound
would raise `TypeError` in Python and is embedded as a distinct error. -/
def validate_field_value (src : Source) (field value : String) : Except String Bool :=
  match src.thresholds.get field with
  | none =>
    if value = "" then .error (field ++ " cannot be empty.") else .ok true
  | some threshold =>
    match threshold with
    | .vObj kvs =>
      match kvs.get "min", kvs.get "max" with
      | some mnv, some mxv =>
        match pyFloat value with
        | none => .error (field ++ " must be a number.")
        | some q =>
          match mnv.asNum, mxv.asNum with
          | some mn, some mx =>
            if mn ≤ q ∧ q ≤ mx then .ok true
            else .error (field ++ " must be between " ++ mnv.pyStr ++ " and " ++ mxv.pyStr ++ ".")
          | _, _ => .error ("TypeError: unorderable bound for " ++ field)
      | _, _ => exactCheck field value threshold
    | .vList l =>
      if l.containsStr value then .ok true
      else .error (field ++ " must be one of: " ++ l.joinComma ++ ".")
    | _ => exactCheck field value threshold

/-- Python `s.split("-")` on the character list of a string. -/
def splitDash : List Char → List (List Char)
| [] => [[]]
| c :: cs =>
  let r := splitDash cs
  if c = Char.ofNat 45 then [] :: r
  else
    match r with
    | [] => [[c]]
    | g :: gs => (c :: g) :: gs

/-- Digits-only integer body (`int` raises `ValueError` on anything else;
whitespace and underscore forms are outside the model). -/
def digitsInt (cs : List Char) : Option Int :=
  if cs ≠ [] && allDigits cs then some ((digitsToNat cs : Nat) : Int) else none

/-- Python `int(str)`: optional sign, then digits; `none` is the raised
`ValueError`. -/
def pyIntOfChars : List Char → Option Int
| [] => none
| c :: cs =>
  if c = Char.ofNat 43 then digitsInt cs
  else if c = Char.ofNat 45 then (digitsInt cs).map (fun n => -n)
  else digitsInt (c :: cs)

/-- `int(item["id"].split("-")[1])`: `none` is the `IndexError` (no dash) or
`ValueError` (non-numeric suffix) the Python expression can raise. -/
def idSuffix (id : String) : Option Int :=
  match (splitDash id.data)[1]? with
  | none => none
  | some comp => pyIntOfChars comp

/-- Python `s.startswith(pfx)`. -/
def strStarts (s pfx2 : String) : Bool := pfx2.data.isPrefixOf s.data

/-- Python `s.upper()` (the simulator only uppercases ASCII source names). -/
def strUpper (s : String) : String := String.mk (s.data.map Char.toUpper)

/-- Python `s[:n]`. -/
def strTake (s : String) (n : Nat) : String := String.mk (s.data.take n)

/-- The list comprehension
`[int(item["id"].split("-")[1]) for item in items if item["id"].startswith(prefix)]`;
`none` is any exception raised while evaluating it (missing or non-string
`id`, malformed suffix). -/
def existingIds (pfx : String) : List ValObj → Option (List Int)
| [] => some []
| it :: rest =>
  match it.get "id" with
  | some (.vStr s) =>
    if strStarts s pfx then
      match idSuffix s with
      | some n => (existingIds pfx rest).map (fun l => n :: l)
      | none => none
    else existingIds pfx rest
  | _ => none

/-- Python `"%03d" % n` for the non-negative counters the simulator uses. -/
def pad3 (n : Int) : String :=
  let s := toString n
  if s.length < 3 then String.mk (List.replicate (3 - s.length) (Char.ofNat 48)) ++ s else s

/-- The id-allocation step shared by `add_item_to_source` (lines 329–331) and
the sensor detail generators: max existing numeric suffix with the prefix
plus one, zero-padded, or `<PFX>-001` when no id with the prefix exists. -/
def allocId (pfx : String) (items : List ValObj) : Option String :=
  (existingIds pfx items).map (fun ids =>
    match ids with
    | [] => pfx ++ "-001"
    | n :: ns => pfx ++ "-" ++ pad3 (ns.foldl max n + 1))

/-- The field-collection loop of `add_item_to_source`: validates each field's
entered value in order and accumulates `item_details`; the first validation
failure aborts the whole add (`none`). -/
def collectDetails (src : Source) (inputs : String → String) : List String → ValObj → Option ValObj
| [], acc => some acc
| f :: rest, acc =>
  match validate_field_value src f (inputs f) with
  | .error _ => none
  | .ok _ => collectDetails src inputs rest (acc.set f (.vStr (inputs f)))

/-- Python `{**base, **extra}`: entries of `extra` folded into `base` with
dict-set semantics. -/
def objUnion (base : ValObj) : ValObj → ValObj
| .nil => base
| .cons k v rest => objUnion (base.set k v) rest

/-- `CRCSimulator.add_item_to_source` (lines 317–335) for the source named
`name`: validate every field value, allocate the next id from the first three
characters of the source name upper-cased, and append the new item.  `none`
covers both a validation failure (the method returns early) and an exception
from id parsing; in both cases the source is unchanged. -/
def add_item_to_source (name : String) (src : Source) (inputs : String → String) :
    Option (ValObj × Source) :=
  match collectDetails src inputs src.fields .nil with
  | none => none
  | some details =>
    match allocId (strUpper (strTake name 3)) src.items with
    | none => none
    | some newId =>
      let newItem := objUnion (.cons "id" (.vStr newId) .nil) details
      some (newItem, { src with items := src.items ++ [newItem] })

/-- `CRCSimulator.remove_item_from_source` (lines 371–391): `items.pop(idx)`
after the menu's bounds check. -/
def remove_item_from_source (src : Source) (idx : Nat) : Source :=
  { src with items := src.items.eraseIdx idx }

/-- `item.get("location") == location` in the sensor detail generators. -/
def locMatches (location : String) (it : ValObj) : Bool :=
  match it.get "location" with
  | some v => Val.beq v (.vStr location)
  | none => false

/-- The hit branch of the sensor generators: mutate the first item whose
`location` equals the probe in place, setting its `value`; `none` when no
item matches. -/
def focUpdate (location status : String) : List ValObj → Option (ValObj × List ValObj)
| [] => none
| it :: rest =>
  if locMatches location it then
    let it2 := it.set "value" (.vStr status)
    some (it2, it2 :: rest)
  else (focUpdate location status rest).map (fun p => (p.1, it :: p.2))

/-- The item dict a sensor generator fabricates on a miss:
`{"id": ..., "name": label + location, "location": ..., "value": ...,
"auto_generated": True}`. -/
def autoItem (label location status newId : String) : ValObj :=
  .cons "id" (.vStr newId)
    (.cons "name" (.vStr (label ++ location))
      (.cons "location" (.vStr location)
        (.cons "value" (.vStr status)
          (.cons "auto_generated" (.vBool true) .nil))))

/-- The find-or-create item logic shared by
`get_motion_sensor_alert_details` (lines 654–666) and
`_get_ir_sensor_alert_details` (lines 689–701): linear search by exact
`location`; on hit, update the item's `value` in place; on miss, allocate
`<pfx>-NNN` and append the `autoItem` dict.  The result pairs the item
referenced by the generated event with the updated item list; `none` is an
exception from id parsing (state unchanged). -/
def find_or_create_auto (pfx label : String) (items : List ValObj) (location status : String) :
    Option (ValObj × List ValObj) :=
  match focUpdate location status items with
  | some r => some r
  | none =>
    match allocId pfx items with
    | none => none
    | some newId =>
      let it := autoItem label location status newId
      some (it, items ++ [it])

/-- The motion-sensor instantiation (prefix `MOT`). -/
def motion_find_or_create (items : List ValObj) (location status : String) :
    Option (ValObj × List ValObj) :=
  find_or_create_auto "MOT" "Motion Sensor at " items location status

/-- The IR-sensor instantiation (prefix `IR`). -/
def ir_find_or_create (items : List ValObj) (location status : String) :
    Option (ValObj × List ValObj) :=
  find_or_create_auto "IR" "IR Sensor at " items location status

/-- The keep/discard pass of `send_event` (lines 496–507): every item whose
`auto_generated` flag is truthy is either made permanent (the flag is
popped) or marked `_remove_after_simulation = True`, per the operator's
answer, modelled by the `keep` predicate. -/
def confirm_or_discard (src : Source) (keep : ValObj → Bool) : Source :=
  { src with items := src.items.map (fun it =>
      if truthyGet it "auto_generated" then
        if keep it then it.pop "auto_generated"
        else it.set "_remove_after_simulation" (.vBool true)
      else it) }

/-- `not item.get("_remove_after_simulation")` — the items a cleanup pass
keeps. -/
def keepItem (it : ValObj) : Bool := !(truthyGet it "_remove_after_simulation")

/-- Python dict lookup on the registry (`self.alert_sources.get(name)` /
`self.alert_sources[name]`). -/
def lookupSrc : Registry → String → Option Source
| [], _ => none
| (k, s) :: rest, name => if k = name then some s else lookupSrc rest name

/-- Python dict assignment on the registry: replace in place when present,
append otherwise. -/
def setSrc : Registry → String → Source → Registry
| [], name, s => [(name, s)]
| (k, v) :: rest, name, s =>
  if k = name then (k, s) :: rest else (k, v) :: setSrc rest name s

/-- `CRCSimulator.cleanup_simulation_items` (lines 509–513): drop every item
with a truthy `_remove_after_simulation` flag from every source. -/
def cleanup_simulation_items (reg : Registry) : Registry :=
  reg.map (fun p => (p.1, { p.2 with items := p.2.items.filter keepItem }))

/-- `CRCSimulator.add_alert_source` (lines 133–140): raises `ValueError` when
the name already exists (second component carries the message, first the
unchanged registry); otherwise creates a source with empty
thresholds/settings/items and persists. -/
def add_alert_source (reg : Registry) (name : String) (fields : List String) :
    Registry × Option String :=
  if (lookupSrc reg name).isSome then
    (reg, some ("Alert Source " ++ squote ++ name ++ squote ++ " already exists."))
  else
    (setSrc reg name { fields := fields, thresholds := .nil, settings := .nil, items := [] }, none)

/-- The item-mutating operations the simulator can perform on the registry:
an explicit item add, the two sensor auto-generation routines, the
keep/discard pass after an event, and the post-event cleanup. -/
inductive SimOp where
| addItem : String → (String → String) → SimOp
| motionAuto : String → String → SimOp
| irAuto : String → String → SimOp
| confirmDiscard : String → (ValObj → Bool) → SimOp
| cleanup : SimOp

/-- Run one sensor auto-generation against the registry: a missing source
(`KeyError`) or an id-parsing exception leaves the registry unchanged. -/
def applyAuto (reg : Registry) (srcName pfx label location status : String) : Registry :=
  match lookupSrc reg srcName with
  | none => reg
  | some s =>
    match find_or_create_auto pfx label s.items location status with
    | none => reg
    | some (_, items2) => setSrc reg srcName { s with items := items2 }

/-- One registry step per `SimOp`; an aborted operation (validation failure
or exception) leaves the state unchanged, as in the Python methods. -/
def stepOp (reg : Registry) : SimOp → Registry
| .addItem name inputs =>
  match lookupSrc reg name with
  | none => reg
  | some s =>
    match add_item_to_source name s inputs with
    | none => reg
    | some (_, s2) => setSrc reg name s2
| .motionAuto location status =>
  applyAuto reg "Motion_Sensor_Alert" "MOT" "Motion Sensor at " location status
| .irAuto location status =>
  applyAuto reg "IR_Sensor_Alert" "IR" "IR Sensor at " location status
| .confirmDiscard name keep =>
  match lookupSrc reg name with
  | none => reg
  | some s => setSrc reg name (confirm_or_discard s keep)
| .cleanup => cleanup_simulation_items reg

/-- Key-set bound on one item. -/
def itemKeysOkB (allowed : List String) (it : ValObj) : Bool :=
  it.keys.all (fun k => allowed.contains k)

/-- The key set the spec's invariant allows:
`fields ∪ {id, auto_generated, _remove_after_simulation}`. -/
def allowedKeysSpec (fields : List String) : List String :=
  fields ++ ["id", "auto_generated", "_remove_after_simulation"]

/-- The key set the code actually maintains: the spec's set extended by the
fixed keys `name`, `location`, `value` that sensor auto-generation writes. -/
def allowedKeysAmended (fields : List String) : List String :=
  fields ++ ["id", "auto_generated", "_remove_after_simulation", "name", "location", "value"]

/-- Spec-claimed invariant on one source. -/
def srcKeysOkSpecB (s : Source) : Bool :=
  s.items.all (itemKeysOkB (allowedKeysSpec s.fields))

/-- Spec-claimed invariant on the registry. -/
def regKeysOkSpecB (reg : Registry) : Bool :=
  reg.all (fun p => srcKeysOkSpecB p.2)

/-- Amended invariant on one source. -/
def srcKeysOkB (s : Source) : Bool :=
  s.items.all (itemKeysOkB (allowedKeysAmended s.fields))

/-- Amended invariant on the registry. -/
def regKeysOkB (reg : Registry) : Bool :=
  reg.all (fun p => srcKeysOkB p.2)

/-- Outcome of one `simulate_event` call. -/
structure SimResult where
  errorMsg : Option String
  sentEvent : Option (String × ValObj)
  cleanupRan : Bool
  finalState : Registry

/-- `get_valid_event_types()` (lines 711–716); the `simulate_event` dispatch
chain tests exactly these six names. -/
def get_valid_event_types : List String :=
  ["SIEM_Alert", "Login_Alert", "Smart_Fence_Alert",
   "Location_Based_Alert", "Motion_Sensor_Alert", "IR_Sensor_Alert"]

/-- `CRCSimulator.simulate_event` (lines 449–470).  The per-type detail
generators (interactive and random code excluded from the core) are passed in
as `gen`, returning the generated event data (or `None`) plus their state
mutation; the keep/discard side of `send_event` is passed in as `sendFx`.
An unknown event type logs and prints an error and returns without
assembling, sending, or cleaning up. -/
def simulate_event (gen : String → Registry → Option ValObj × Registry)
    (sendFx : String → ValObj → Registry → Registry)
    (reg : Registry) (etype : String) : SimResult :=
  if etype ∈ get_valid_event_types then
    match gen etype reg with
    | (some d, reg1) =>
      { errorMsg := none, sentEvent := some (etype, d), cleanupRan := true,
        finalState := cleanup_simulation_items (sendFx etype d reg1) }
    | (none, reg1) =>
      { errorMsg := none, sentEvent := none, cleanupRan := false, finalState := reg1 }
  else
    { errorMsg := some ("Unknown event type " ++ squote ++ etype ++ squote),
      sentEvent := none, cleanupRan := false, finalState := reg }

/-- Assoc-list lookup used for the plain JSON mappings of the legacy
configuration document. -/
def listLookup {α : Type} : List (String × α) → String → Option α
| [], _ => none
| (k, v) :: rest, key => if k = key then some v else listLookup rest key

/-- The hardcoded `default_fields` table of `CRCSimulator.__init__`
(lines 93–100). -/
def defaultFieldsTable : List (String × List String) :=
  [("SIEM_Alert", ["severity", "description", "affectedUser", "sourceIP", "destinationIP",
                   "protocol", "sourcePort", "destinationPort", "deviceAction", "targetResource"]),
   ("Login_Alert", ["loginStatus", "username", "sourceIP", "userAgent", "authenticationMethod",
                    "failureReason", "loginTimestamp"]),
   ("Smart_Fence_Alert", ["fenceId", "segmentId", "alertType", "status", "detectionTimestamp",
                          "sensorData"]),
   ("Location_Based_Alert", ["userId", "deviceId", "locationDescription", "latitude", "longitude",
                             "trigger", "speed", "altitude", "accuracy"]),
   ("Motion_Sensor_Alert", ["itemId", "location", "status", "detectionTimestamp",
                            "sensitivityLevel"]),
   ("IR_Sensor_Alert", ["itemId", "location", "status", "beamStatusTimestamp", "beamStrength"])]

/-- `default_fields.get(event_type, [])`. -/
def default_fields (et : String) : List String :=
  (listLookup defaultFieldsTable et).getD []

/-- The keys the settings-migration loop skips
(`("thresholds", "fields", "items")`). -/
def reservedMigrationKeys : List String := ["thresholds", "fields", "items"]

/-- The settings-migration loop: every non-reserved key of the legacy
per-type dict is copied, in order, into the settings dict. -/
def migrateSettingsGo : ValObj → ValObj → ValObj
| .nil, acc => acc
| .cons k v rest, acc =>
  migrateSettingsGo rest (if k ∈ reservedMigrationKeys then acc else acc.set k v)

/-- The configuration document as `CRCSimulator.__init__` consumes it:
`alert_sources` (absent = empty), the legacy top-level `items` mapping, and
the legacy per-type dicts (`config[k]` for the six type names; non-dict
entries are skipped by the `isinstance` check and therefore omitted from the
model, and legacy `items`/`thresholds` values are modelled in their intended
decoded shapes). -/
structure ConfigDoc where
  alert_sources : List (String × Source)
  legacyItems : List (String × List ValObj)
  legacyPerType : List (String × ValObj)

/-- The fresh registry the migration starts from: one source per valid event
type, with its default field list and empty thresholds/settings/items. -/
def migrationBase : Registry :=
  get_valid_event_types.map (fun et =>
    (et, { fields := default_fields et, thresholds := .nil, settings := .nil, items := [] }))

/-- The `for k, v in old_items.items()` loop of the migration: a legacy item
list is installed on the source of the same name, when that source exists. -/
def absorbLegacyItems (r : Registry) : List (String × List ValObj) → Registry
| [] => r
| kv :: rest =>
  absorbLegacyItems
    (match lookupSrc r kv.1 with
     | some s => setSrc r kv.1 { s with items := kv.2 }
     | none => r) rest

/-- The per-type thresholds/settings migration (`for k in self.alert_sources`
loop): when the legacy document has a dict under the type name, a
`thresholds` mapping inside it is moved verbatim and every other
non-reserved key is copied into settings. -/
def applyLegacyPerType (cfg : ConfigDoc) (et : String) (s : Source) : Source :=
  match listLookup cfg.legacyPerType et with
  | none => s
  | some entries =>
    { s with
      thresholds :=
        (match entries.get "thresholds" with
         | some (.vObj o) => o
         | _ => s.thresholds),
      settings := migrateSettingsGo entries s.settings }

/-- The migration body of `CRCSimulator.__init__` (lines 92–121): create the
six sources with their default field lists, absorb legacy per-type items,
move a legacy `thresholds` mapping verbatim, and copy every other
non-reserved per-type key into settings. -/
def migrate (cfg : ConfigDoc) : Registry :=
  (absorbLegacyItems migrationBase cfg.legacyItems).map (fun p =>
    (p.1, applyLegacyPerType cfg p.1 p.2))

/-- The construction-time registry setup of `CRCSimulator.__init__`
(lines 90–121): when the stored `alert_sources` mapping is absent or empty
the migration runs and the result is saved immediately (second component
`true`); otherwise the stored mapping is used as-is and nothing is saved
during construction. -/
def initSim (cfg : ConfigDoc) : Registry × Bool :=
  if cfg.alert_sources.isEmpty then (migrate cfg, true) else (cfg.alert_sources, false)

/-- A source whose `num` field carries the Range rule `{min: 1, max: 10}`
(the configuration `test_validate_field_value_range` builds). -/
def c1Src : Source :=
  { fields := ["num"],
    thresholds := .cons "num" (.vObj (.cons "min" (.vInt 1) (.cons "max" (.vInt 10) .nil))) .nil,
    settings := .nil, items := [] }

/-- A source whose `num` field carries a dict rule lacking `max`. -/
def c9Src : Source :=
  { fields := ["num"],
    thresholds := .cons "num" (.vObj (.cons "min" (.vInt 1) .nil)) .nil,
    settings := .nil, items := [] }

/-- A `TestAlert`-shaped source with a single unconstrained field. -/
def c2Src : Source :=
  { fields := ["field1"], thresholds := .nil, settings := .nil, items := [] }

/-- Operator input supplying the value `val` for every prompted field. -/
def c2Inputs : String → String := fun _ => "val"

/-- The `TestAlert` source after its first explicit item add. -/
def c2SrcAfter1 : Source :=
  match add_item_to_source "TestAlert" c2Src c2Inputs with
  | some p => p.2
  | none => c2Src

/-- A registry holding the migrated default `Motion_Sensor_Alert` source with
no items yet. -/
def c3Reg : Registry :=
  [("Motion_Sensor_Alert",
    { fields := default_fields "Motion_Sensor_Alert",
      thresholds := .nil, settings := .nil, items := [] })]

/-- An item flagged for removal after simulation. -/
def c5Item1 : ValObj :=
  .cons "id" (.vStr "TES-001") (.cons "_remove_after_simulation" (.vBool true) .nil)

/-- An unflagged item. -/
def c5Item2 : ValObj := .cons "id" (.vStr "TES-002") .nil

/-- A source holding one flagged and one unflagged item. -/
def c5Src : Source :=
  { fields := ["field1"], thresholds := .nil, settings := .nil,
    items := [c5Item1, c5Item2] }

/-- A registry for exercising the cleanup pass. -/
def c5Reg : Registry := [("TestAlert", c5Src)]

/-- A legacy configuration document: no `alert_sources`, one legacy item list
and one legacy per-type dict with a thresholds mapping and a loose setting. -/
def c6Cfg : ConfigDoc :=
  { alert_sources := [],
    legacyItems := [("SIEM_Alert", [ValObj.cons "id" (.vStr "SIE-001") .nil])],
    legacyPerType :=
      [("SIEM_Alert",
        .cons "thresholds" (.vObj (.cons "severity" (.vStr "High") .nil))
          (.cons "default_severity" (.vStr "Medium") .nil))] }

/-- A detail generator producing no event data and leaving the state alone
(stands in for the excluded interactive/random generator routines). -/
def trivGen : String → Registry → Option ValObj × Registry := fun _ r => (none, r)

/-- A send effect that leaves the registry alone. -/
def trivSend : String → ValObj → Registry → Registry := fun _ _ r => r


/-! ### Helper lemmas -/

theorem exactCheck_ok_iff (field value : String) (t : Val) :
    exactCheck field value t = .ok true ↔ value = t.pyStr := by
  by_cases h : value = t.pyStr <;> simp [exactCheck, h]

theorem lookup_setSrc_self (reg : Registry) (name : String) (s : Source) :
    lookupSrc (setSrc reg name s) name = some s := by
  induction reg with
  | nil => simp [setSrc, lookupSrc]
  | cons p rest ih =>
    obtain ⟨k, v⟩ := p
    by_cases h : k = name
    · simp [setSrc, lookupSrc, h]
    · simp [setSrc, lookupSrc, h, ih]

/-! ### C1: Range-rule validation -/

/-- C1: whenever a source's thresholds map a field to a dict rule carrying
numeric `min` and `max`, validating a raw string value returns Ok exactly
when the value parses as a number in `[min, max]` inclusive; a non-numeric
value raises the "must be a number" error, and a numeric value out of bounds
raises the error naming the bounds. -/
theorem range_rule_validation {src : Source} {field value : String} {kvs : ValObj}
    {mnv mxv : Val} {mn mx : Rat}
    (ht : src.thresholds.get field = some (.vObj kvs))
    (hmin : kvs.get "min" = some mnv) (hmax : kvs.get "max" = some mxv)
    (hmn : mnv.asNum = some mn) (hmx : mxv.asNum = some mx) :
    (validate_field_value src field value = .ok true ↔
      ∃ q, pyFloat value = some q ∧ mn ≤ q ∧ q ≤ mx) ∧
    (pyFloat value = none →
      validate_field_value src field value = .error (field ++ " must be a number.")) ∧
    (∀ q, pyFloat value = some q → ¬(mn ≤ q ∧ q ≤ mx) →
      validate_field_value src field value =
        .error (field ++ " must be between " ++ mnv.pyStr ++ " and " ++ mxv.pyStr ++ ".")) := by
  unfold validate_field_value
  rw [ht]
  dsimp only
  rw [hmin, hmax]
  dsimp only
  rcases Option.eq_none_or_eq_some (pyFloat value) with hpf | ⟨q, hpf⟩
  · rw [hpf]
    dsimp only
    refine ⟨⟨fun h => by simp at h, ?_⟩, fun _ => rfl,
            fun q hq => Option.noConfusion hq⟩
    rintro ⟨q, hq, -⟩
    exact Option.noConfusion hq
  · rw [hpf]
    dsimp only
    rw [hmn, hmx]
    dsimp only
    by_cases hcmp : mn ≤ q ∧ q ≤ mx
    · rw [if_pos hcmp]
      refine ⟨⟨fun _ => ⟨q, rfl, hcmp⟩, fun _ => rfl⟩,
              fun h => Option.noConfusion h,
              fun q2 hq2 hnc => ?_⟩
      exact absurd (Option.some.inj hq2 ▸ hcmp) hnc
    · rw [if_neg hcmp]
      refine ⟨⟨fun h => by simp at h, ?_⟩,
              fun h => Option.noConfusion h,
              fun q2 hq2 hnc => rfl⟩
      rintro ⟨q2, hq2, hle⟩
      exact absurd (Option.some.inj hq2 ▸ hle) hcmp

/-- C1 witness: the Range rule `{min: 1, max: 10}` on field `num` accepts
`"5"` and rejects `"0"`, `"11"` and `"abc"` with the expected messages. -/
theorem range_rule_validation_witness :
    validate_field_value c1Src "num" "5" = .ok true ∧
    validate_field_value c1Src "num" "0" = .error "num must be between 1 and 10." ∧
    validate_field_value c1Src "num" "11" = .error "num must be between 1 and 10." ∧
    validate_field_value c1Src "num" "abc" = .error "num must be a number." :=
  ⟨(@range_rule_validation c1Src "num" "5" (.cons "min" (.vInt 1) (.cons "max" (.vInt 10) .nil))
      (.vInt 1) (.vInt 10) (((1 : Int)) : Rat) (((10 : Int)) : Rat)
      rfl rfl rfl rfl rfl).1.mpr ⟨((5 : Nat) : Rat), rfl, by decide, by decide⟩,
   (@range_rule_validation c1Src "num" "0" (.cons "min" (.vInt 1) (.cons "max" (.vInt 10) .nil))
      (.vInt 1) (.vInt 10) (((1 : Int)) : Rat) (((10 : Int)) : Rat)
      rfl rfl rfl rfl rfl).2.2 ((0 : Nat) : Rat) rfl (by decide),
   (@range_rule_validation c1Src "num" "11" (.cons "min" (.vInt 1) (.cons "max" (.vInt 10) .nil))
      (.vInt 1) (.vInt 10) (((1 : Int)) : Rat) (((10 : Int)) : Rat)
      rfl rfl rfl rfl rfl).2.2 ((11 : Nat) : Rat) rfl (by decide),
   (@range_rule_validation c1Src "num" "abc" (.cons "min" (.vInt 1) (.cons "max" (.vInt 10) .nil))
      (.vInt 1) (.vInt 10) (((1 : Int)) : Rat) (((10 : Int)) : Rat)
      rfl rfl rfl rfl rfl).2.1 rfl⟩

/-! ### C9: dict rules missing a bound fall through to exact matching -/

/-- C9: a threshold rule that is a dict lacking `min` or lacking `max` is not
treated as a Range rule: validation falls through to the exact-match branch
and accepts the raw value exactly when it equals the Python string form of
the whole dict. -/
theorem dict_rule_missing_bound_exact {src : Source} {field value : String} {kvs : ValObj}
    (ht : src.thresholds.get field = some (.vObj kvs))
    (hmiss : kvs.get "min" = none ∨ kvs.get "max" = none) :
    validate_field_value src field value = .ok true ↔ value = Val.pyStr (.vObj kvs) := by
  unfold validate_field_value
  rw [ht]
  dsimp only
  rcases hmn2 : kvs.get "min" with _ | mv <;>
    rcases hmx2 : kvs.get "max" with _ | xv <;>
      try exact exactCheck_ok_iff field value (.vObj kvs)
  rcases hmiss with h | h
  · rw [h] at hmn2
    exact Option.noConfusion hmn2
  · rw [h] at hmx2
    exact Option.noConfusion hmx2

/-- C9 witness: with the rule `{min: 1}` on field `num`, acceptance of `"5"`
is equivalent to `"5"` being the string form of the whole dict (hence it is
rejected). -/
theorem dict_rule_missing_bound_exact_witness :
    validate_field_value c9Src "num" "5" = .ok true ↔
      "5" = Val.pyStr (.vObj (.cons "min" (.vInt 1) .nil)) :=
  dict_rule_missing_bound_exact rfl (Or.inr rfl)

/-! ### C2: id allocation and reuse after removal -/

/-- C2 counterexample: on a fresh source named `TestAlert`, adding an item
allocates `TES-001`; after removing that item, the next add allocates
`TES-001` again — not `TES-002` — so a freed id is reused. -/
theorem next_id_reuse_counterexample :
    (add_item_to_source "TestAlert" (remove_item_from_source c2SrcAfter1 0) c2Inputs).map
        (fun p => p.1.get "id") = some (some (.vStr "TES-001")) ∧
    "TES-001" ≠ "TES-002" := ⟨rfl, by decide⟩

/-- C2 amended: the first item added to a fresh source named `TestAlert` gets
id `TES-001`, and a second item added while the first is still present gets
`TES-002`; but allocation is max-of-present-suffixes plus one (or 001 when no
prefixed id is present), so after the only item is removed the next add
reuses `TES-001`. -/
theorem next_id_allocation :
    (add_item_to_source "TestAlert" c2Src c2Inputs).map (fun p => p.1.get "id")
        = some (some (.vStr "TES-001")) ∧
    (add_item_to_source "TestAlert" c2SrcAfter1 c2Inputs).map (fun p => p.1.get "id")
        = some (some (.vStr "TES-002")) ∧
    (add_item_to_source "TestAlert" (remove_item_from_source c2SrcAfter1 0) c2Inputs).map
        (fun p => p.1.get "id") = some (some (.vStr "TES-001")) := ⟨rfl, rfl, rfl⟩

/-! ### C4: duplicate source names are rejected without a state change -/

/-- C4: after a successful add of a source name, adding the same name again
raises the duplicate-name `ValueError` and returns the registry exactly as it
was before the failed call. -/
theorem duplicate_add_rejected (reg reg1 : Registry) (name : String)
    (fields fields2 : List String)
    (h : add_alert_source reg name fields = (reg1, none)) :
    add_alert_source reg1 name fields2 =
      (reg1, some ("Alert Source " ++ squote ++ name ++ squote ++ " already exists.")) := by
  unfold add_alert_source at h ⊢
  by_cases hl : (lookupSrc reg name).isSome
  · rw [if_pos hl] at h
    injection h with h1 h2
    cases h2
  · rw [if_neg hl] at h
    injection h with h1 h2
    rw [if_pos]
    rw [← h1, lookup_setSrc_self]
    rfl

/-- C4 witness: adding `TestAlert` twice to an empty registry fails on the
second call and leaves the registry as it was after the first. -/
theorem duplicate_add_rejected_witness :
    add_alert_source (add_alert_source [] "TestAlert" ["field1"]).1 "TestAlert" ["field2"] =
      ((add_alert_source [] "TestAlert" ["field1"]).1,
       some ("Alert Source " ++ squote ++ "TestAlert" ++ squote ++ " already exists.")) :=
  duplicate_add_rejected [] _ "TestAlert" ["field1"] ["field2"] rfl

/-! ### C7: unknown event types abort the simulation -/

/-- C7: simulating an event type outside the six recognized kinds reports the
unknown-event-type error and returns with no event assembled or sent, no
cleanup pass, and the registry unchanged. -/
theorem unknown_event_type_rejected (etype : String) (h : etype ∉ get_valid_event_types)
    (gen : String → Registry → Option ValObj × Registry)
    (sendFx : String → ValObj → Registry → Registry) (reg : Registry) :
    simulate_event gen sendFx reg etype =
      { errorMsg := some ("Unknown event type " ++ squote ++ etype ++ squote),
        sentEvent := none, cleanupRan := false, finalState := reg } := by
  unfold simulate_event
  rw [if_neg h]

/-- C7 witness: `Fake_Alert` is not a recognized kind, so simulating it only
reports the error. -/
theorem unknown_event_type_rejected_witness :
    simulate_event trivGen trivSend [] "Fake_Alert" =
      { errorMsg := some ("Unknown event type " ++ squote ++ "Fake_Alert" ++ squote),
        sentEvent := none, cleanupRan := false, finalState := [] } :=
  unknown_event_type_rejected "Fake_Alert" (by decide) trivGen trivSend []

/-! ### C5 and C10: the cleanup pass -/

theorem lookup_cleanup (reg : Registry) (name : String) :
    lookupSrc (cleanup_simulation_items reg) name =
      (lookupSrc reg name).map (fun s => { s with items := s.items.filter keepItem }) := by
  induction reg with
  | nil => rfl
  | cons p rest ih =>
    obtain ⟨k, v⟩ := p
    by_cases h : k = name
    · simp [cleanup_simulation_items, lookupSrc, h]
    · simpa [cleanup_simulation_items, lookupSrc, h] using ih

theorem cleanup_names (reg : Registry) :
    (cleanup_simulation_items reg).map Prod.fst = reg.map Prod.fst := by
  unfold cleanup_simulation_items
  rw [List.map_map]
  exact List.map_congr_left (fun a _ => rfl)

/-- C5: a single cleanup pass removes, from every source in the registry,
exactly the items whose `_remove_after_simulation` flag is truthy, and every
item without the flag survives unchanged (the surviving list is literally the
filter of the old one). -/
theorem cleanup_removes_flagged (reg : Registry) (name : String) (s : Source)
    (h : lookupSrc reg name = some s) :
    ∃ s2, lookupSrc (cleanup_simulation_items reg) name = some s2 ∧
      s2.items = s.items.filter keepItem ∧
      (∀ it ∈ s.items, truthyGet it "_remove_after_simulation" = true → it ∉ s2.items) ∧
      (∀ it ∈ s.items, truthyGet it "_remove_after_simulation" = false → it ∈ s2.items) := by
  refine ⟨{ s with items := s.items.filter keepItem }, ?_, rfl, ?_, ?_⟩
  · rw [lookup_cleanup, h]
    rfl
  · intro it hmem hflag hmem2
    rw [List.mem_filter] at hmem2
    have h2 := hmem2.2
    simp [keepItem, hflag] at h2
  · intro it hmem hflag
    rw [List.mem_filter]
    exact ⟨hmem, by simp [keepItem, hflag]⟩

/-- C5 witness: in the concrete registry `c5Reg`, cleanup removes the flagged
item and keeps the unflagged one. -/
theorem cleanup_removes_flagged_witness :
    ∃ s2, lookupSrc (cleanup_simulation_items c5Reg) "TestAlert" = some s2 ∧
      s2.items = c5Src.items.filter keepItem ∧
      (∀ it ∈ c5Src.items, truthyGet it "_remove_after_simulation" = true → it ∉ s2.items) ∧
      (∀ it ∈ c5Src.items, truthyGet it "_remove_after_simulation" = false → it ∈ s2.items) :=
  cleanup_removes_flagged c5Reg "TestAlert" c5Src rfl

/-- C10: cleanup mutates only the item lists: the registry's name sequence
and every source's fields, thresholds and settings are unchanged, and the
surviving items are a sublist (hence keep their relative order) of the old
items. -/
theorem cleanup_frame (reg : Registry) (name : String) (s : Source)
    (h : lookupSrc reg name = some s) :
    (cleanup_simulation_items reg).map Prod.fst = reg.map Prod.fst ∧
    ∃ s2, lookupSrc (cleanup_simulation_items reg) name = some s2 ∧
      s2.fields = s.fields ∧ s2.thresholds = s.thresholds ∧ s2.settings = s.settings ∧
      s2.items = s.items.filter keepItem ∧ s2.items.Sublist s.items := by
  refine ⟨cleanup_names reg,
          { s with items := s.items.filter keepItem }, ?_, rfl, rfl, rfl, rfl, ?_⟩
  · rw [lookup_cleanup, h]
    rfl
  · exact s.items.filter_sublist

/-- C10 witness: the concrete registry `c5Reg` keeps its name list and the
source keeps its fields/thresholds/settings across cleanup. -/
theorem cleanup_frame_witness :
    (cleanup_simulation_items c5Reg).map Prod.fst = c5Reg.map Prod.fst ∧
    ∃ s2, lookupSrc (cleanup_simulation_items c5Reg) "TestAlert" = some s2 ∧
      s2.fields = c5Src.fields ∧ s2.thresholds = c5Src.thresholds ∧
      s2.settings = c5Src.settings ∧
      s2.items = c5Src.items.filter keepItem ∧ s2.items.Sublist c5Src.items :=
  cleanup_frame c5Reg "TestAlert" c5Src rfl

/-! ### C8: find-or-create deduplication by location -/

theorem ValObj.get_set_ne : ∀ (o : ValObj) (k k2 : String) (v : Val), k ≠ k2 →
    (o.set k v).get k2 = o.get k2
| .nil, k, k2, v, h => by simp [ValObj.set, ValObj.get, h]
| .cons k3 v3 rest, k, k2, v, h => by
  by_cases h3 : k3 = k
  · subst h3
    simp [ValObj.set, ValObj.get, h]
  · by_cases h4 : k3 = k2
    · simp [ValObj.set, ValObj.get, h3, h4, Ne.symm h]
    · simp [ValObj.set, ValObj.get, h3, h4, ValObj.get_set_ne rest k k2 v h]

theorem locMatches_set_value (location status : String) (it : ValObj) :
    locMatches location (it.set "value" (.vStr status)) = locMatches location it := by
  unfold locMatches
  rw [ValObj.get_set_ne]
  decide

theorem focUpdate_none_iff (location status : String) (items : List ValObj) :
    focUpdate location status items = none ↔
      ∀ it ∈ items, locMatches location it = false := by
  induction items with
  | nil => simp [focUpdate]
  | cons it rest ih =>
    by_cases h : locMatches location it
    · simp [focUpdate, h, List.forall_mem_cons]
    · simp only [Bool.not_eq_true] at h
      simp [focUpdate, h, List.forall_mem_cons, Option.map_eq_none', ih]

theorem focUpdate_length (location status : String) (items : List ValObj) :
    ∀ it1 items2, focUpdate location status items = some (it1, items2) →
      items2.length = items.length := by
  induction items with
  | nil => exact fun it1 items2 h => Option.noConfusion h
  | cons it rest ih =>
    intro it1 items2 h
    rw [focUpdate] at h
    by_cases hm : locMatches location it
    · rw [if_pos hm] at h
      obtain ⟨h1, h2⟩ := Prod.mk.inj (Option.some.inj h)
      subst h2
      rfl
    · rw [if_neg hm] at h
      rcases hf : focUpdate location status rest with _ | ⟨p1, p2⟩
      · rw [hf] at h
        exact Option.noConfusion h
      · rw [hf, Option.map_some'] at h
        obtain ⟨h1, h2⟩ := Prod.mk.inj (Option.some.inj h)
        subst h2
        simp [ih p1 p2 hf]

theorem focUpdate_rehit (location status status2 : String) (items : List ValObj) :
    ∀ it1 items2, focUpdate location status items = some (it1, items2) →
      ∃ items3, focUpdate location status2 items2 =
          some (it1.set "value" (.vStr status2), items3) ∧
        items3.length = items2.length := by
  induction items with
  | nil => exact fun it1 items2 h => Option.noConfusion h
  | cons it rest ih =>
    intro it1 items2 h
    rw [focUpdate] at h
    by_cases hm : locMatches location it
    · rw [if_pos hm] at h
      obtain ⟨h1, h2⟩ := Prod.mk.inj (Option.some.inj h)
      subst h1
      subst h2
      have hm2 : locMatches location (it.set "value" (.vStr status)) = true := by
        rw [locMatches_set_value]
        exact hm
      refine ⟨(it.set "value" (Val.vStr status)).set "value" (Val.vStr status2) :: rest,
              ?_, by simp⟩
      rw [focUpdate, if_pos hm2]
    · rw [if_neg hm] at h
      rcases hf : focUpdate location status rest with _ | ⟨p1, p2⟩
      · rw [hf] at h
        exact Option.noConfusion h
      · rw [hf, Option.map_some'] at h
        obtain ⟨h1, h2⟩ := Prod.mk.inj (Option.some.inj h)
        subst h1
        subst h2
        obtain ⟨items3, hf2, hlen⟩ := ih p1 p2 hf
        refine ⟨it :: items3, ?_, by simp [hlen]⟩
        rw [focUpdate, if_neg hm, hf2, Option.map_some']

theorem focUpdate_append_none (location status : String) (l1 l2 : List ValObj)
    (h : ∀ it ∈ l1, locMatches location it = false) :
    focUpdate location status (l1 ++ l2) =
      (focUpdate location status l2).map (fun p => (p.1, l1 ++ p.2)) := by
  induction l1 with
  | nil =>
    simp only [List.nil_append]
    cases focUpdate location status l2 <;> rfl
  | cons it rest ih =>
    have hm := h it (by simp)
    have hrest : ∀ it2 ∈ rest, locMatches location it2 = false :=
      fun it2 h2 => h it2 (by simp [h2])
    simp only [List.cons_append]
    rw [focUpdate, if_neg (by simp [hm]), ih hrest]
    cases focUpdate location status l2 <;> rfl

theorem locMatches_autoItem (label location status newId : String) :
    locMatches location (autoItem label location status newId) = true := by
  simp [locMatches, autoItem, ValObj.get, Val.beq]

theorem autoItem_set_value_get_id (label location status status2 newId : String) :
    ((autoItem label location status newId).set "value" (.vStr status2)).get "id" =
      (autoItem label location status newId).get "id" :=
  ValObj.get_set_ne _ "value" "id" _ (by decide)

/-- C8: on the IR-sensor item list, a find-or-create call with a location no
present item carries appends exactly one new item with `auto_generated` set
to true; and after any successful call, a second call with the same location
hits the same item — the same id is returned and the list does not grow — so
no duplicate is ever appended. -/
theorem find_or_create_auto_dedup (items : List ValObj) (location status status2 : String) :
    ((∀ it ∈ items, locMatches location it = false) →
      ∀ newId, allocId "IR" items = some newId →
        ir_find_or_create items location status =
          some (autoItem "IR Sensor at " location status newId,
                items ++ [autoItem "IR Sensor at " location status newId]) ∧
        (autoItem "IR Sensor at " location status newId).get "auto_generated" =
          some (.vBool true)) ∧
    (∀ it1 items1, ir_find_or_create items location status = some (it1, items1) →
      ∃ it2 items2, ir_find_or_create items1 location status2 = some (it2, items2) ∧
        it2.get "id" = it1.get "id" ∧ items2.length = items1.length) := by
  constructor
  · intro hnone newId halloc
    have hf : focUpdate location status items = none :=
      (focUpdate_none_iff location status items).mpr hnone
    unfold ir_find_or_create find_or_create_auto
    rw [hf, halloc]
    exact ⟨rfl, by simp [autoItem, ValObj.get]⟩
  · intro it1 items1 h
    unfold ir_find_or_create find_or_create_auto at h
    rcases hf : focUpdate location status items with _ | ⟨it0, itemsU⟩
    · rw [hf] at h
      rcases halloc : allocId "IR" items with _ | newId
      · rw [halloc] at h
        exact Option.noConfusion h
      · rw [halloc] at h
        dsimp only at h
        obtain ⟨h1, h2⟩ := Prod.mk.inj (Option.some.inj h)
        subst h1
        subst h2
        have hnone := (focUpdate_none_iff location status items).mp hf
        have hmatch := locMatches_autoItem "IR Sensor at " location status newId
        have hsing : focUpdate location status2 [autoItem "IR Sensor at " location status newId] =
            some ((autoItem "IR Sensor at " location status newId).set "value" (.vStr status2),
                  [(autoItem "IR Sensor at " location status newId).set "value" (.vStr status2)]) := by
          rw [focUpdate, if_pos hmatch]
        refine ⟨(autoItem "IR Sensor at " location status newId).set "value" (.vStr status2),
                items ++ [(autoItem "IR Sensor at " location status newId).set "value" (.vStr status2)],
                ?_, autoItem_set_value_get_id _ _ _ _ _, by simp⟩
        unfold ir_find_or_create find_or_create_auto
        rw [focUpdate_append_none location status2 items _ hnone, hsing, Option.map_some']
    · rw [hf] at h
      dsimp only at h
      obtain ⟨h1, h2⟩ := Prod.mk.inj (Option.some.inj h)
      subst h1
      subst h2
      obtain ⟨items3, hf2, hlen⟩ := focUpdate_rehit location status status2 items it0 itemsU hf
      refine ⟨it0.set "value" (.vStr status2), items3, ?_, ?_, hlen⟩
      · unfold ir_find_or_create find_or_create_auto
        rw [hf2]
      · exact ValObj.get_set_ne _ "value" "id" _ (by decide)

/-- C8 witness: on an empty IR item list, finding `Main Gate 1` misses and
appends exactly one auto-generated item with id `IR-001`. -/
theorem find_or_create_auto_dedup_witness :
    ir_find_or_create [] "Main Gate 1" "Detected" =
      some (autoItem "IR Sensor at " "Main Gate 1" "Detected" "IR-001",
            [] ++ [autoItem "IR Sensor at " "Main Gate 1" "Detected" "IR-001"]) ∧
    (autoItem "IR Sensor at " "Main Gate 1" "Detected" "IR-001").get "auto_generated" =
      some (.vBool true) :=
  (find_or_create_auto_dedup [] "Main Gate 1" "Detected" "Clear").1 (by simp) "IR-001" rfl

/-! ### C3: item key-set invariant -/

theorem ValObj.get_set_self : ∀ (o : ValObj) (k : String) (v : Val), (o.set k v).get k = some v
| .nil, k, v => by simp [ValObj.set, ValObj.get]
| .cons k3 v3 rest, k, v => by
  by_cases h3 : k3 = k
  · subst h3
    simp [ValObj.set, ValObj.get]
  · simp [ValObj.set, ValObj.get, h3, ValObj.get_set_self rest k v]

theorem ValObj.get_none_of_not_mem : ∀ (o : ValObj) (k : String), k ∉ o.keys → o.get k = none
| .nil, k, h => rfl
| .cons k3 v3 rest, k, h => by
  simp only [ValObj.keys, List.mem_cons, not_or] at h
  simp [ValObj.get, Ne.symm h.1, ValObj.get_none_of_not_mem rest k h.2]

theorem ValObj.keys_set : ∀ (o : ValObj) (k : String) (v : Val) (k2 : String),
    k2 ∈ (o.set k v).keys → k2 = k ∨ k2 ∈ o.keys
| .nil, k, v, k2, h => by
  simp [ValObj.set, ValObj.keys] at h
  exact Or.inl h
| .cons k3 v3 rest, k, v, k2, h => by
  by_cases h3 : k3 = k
  · subst h3
    simp only [ValObj.set, if_pos rfl] at h
    exact Or.inr h
  · simp only [ValObj.set, if_neg h3, ValObj.keys, List.mem_cons] at h
    rcases h with h | h
    · exact Or.inr (by simp [ValObj.keys, h])
    · rcases ValObj.keys_set rest k v k2 h with h2 | h2
      · exact Or.inl h2
      · exact Or.inr (by simp [ValObj.keys, h2])

theorem ValObj.keys_pop : ∀ (o : ValObj) (k k2 : String), k2 ∈ (o.pop k).keys → k2 ∈ o.keys
| .nil, k, k2, h => by simp [ValObj.pop, ValObj.keys] at h
| .cons k3 v3 rest, k, k2, h => by
  by_cases h3 : k3 = k
  · subst h3
    rw [ValObj.pop, if_pos rfl] at h
    simp [ValObj.keys, h]
  · rw [ValObj.pop, if_neg h3] at h
    simp only [ValObj.keys, List.mem_cons] at h
    rcases h with h | h
    · simp [ValObj.keys, h]
    · simp [ValObj.keys, ValObj.keys_pop rest k k2 h]

theorem objUnion_keys : ∀ (extra base : ValObj) (k : String),
    k ∈ (objUnion base extra).keys → k ∈ base.keys ∨ k ∈ extra.keys
| .nil, base, k, h => Or.inl h
| .cons k1 v1 rest, base, k, h => by
  rcases objUnion_keys rest (base.set k1 v1) k h with h2 | h2
  · rcases ValObj.keys_set base k1 v1 k h2 with h3 | h3
    · exact Or.inr (by simp [ValObj.keys, h3])
    · exact Or.inl h3
  · exact Or.inr (by simp [ValObj.keys, h2])

theorem collectDetails_keys (src : Source) (inputs : String → String) :
    ∀ (fs : List String) (acc d : ValObj),
      collectDetails src inputs fs acc = some d →
      ∀ k ∈ d.keys, k ∈ acc.keys ∨ k ∈ fs := by
  intro fs
  induction fs with
  | nil =>
    intro acc d h k hk
    exact Or.inl ((Option.some.inj h) ▸ hk)
  | cons f rest ih =>
    intro acc d h k hk
    rw [collectDetails] at h
    rcases hv : validate_field_value src f (inputs f) with e | b
    · rw [hv] at h
      exact Option.noConfusion h
    · rw [hv] at h
      rcases ih (acc.set f (.vStr (inputs f))) d h k hk with h2 | h2
      · rcases ValObj.keys_set acc f (.vStr (inputs f)) k h2 with h3 | h3
        · exact Or.inr (by simp [h3])
        · exact Or.inl h3
      · exact Or.inr (by simp [h2])

theorem setSrc_mem : ∀ (reg : Registry) (name : String) (s : Source) (p : String × Source),
    p ∈ setSrc reg name s → p = (name, s) ∨ p ∈ reg := by
  intro reg
  induction reg with
  | nil =>
    intro name s p h
    rw [setSrc] at h
    exact Or.inl (List.mem_singleton.mp h)
  | cons q rest ih =>
    intro name s p h
    obtain ⟨k, v⟩ := q
    by_cases hk : k = name
    · rw [setSrc, if_pos hk] at h
      rcases List.mem_cons.mp h with h2 | h2
      · exact Or.inl (by rw [h2, hk])
      · exact Or.inr (List.mem_cons_of_mem _ h2)
    · rw [setSrc, if_neg hk] at h
      rcases List.mem_cons.mp h with h2 | h2
      · exact Or.inr (by rw [h2]; exact List.mem_cons_self _ _)
      · rcases ih name s p h2 with h3 | h3
        · exact Or.inl h3
        · exact Or.inr (List.mem_cons_of_mem _ h3)

theorem lookupSrc_mem : ∀ (reg : Registry) (name : String) (s : Source),
    lookupSrc reg name = some s → (name, s) ∈ reg := by
  intro reg
  induction reg with
  | nil => intro name s h; exact Option.noConfusion h
  | cons q rest ih =>
    intro name s h
    obtain ⟨k, v⟩ := q
    by_cases hk : k = name
    · subst hk
      rw [lookupSrc, if_pos rfl] at h
      simp [Option.some.inj h]
    · rw [lookupSrc, if_neg hk] at h
      simp [ih name s h]

theorem itemKeysOkB_iff (allowed : List String) (it : ValObj) :
    itemKeysOkB allowed it = true ↔ ∀ k ∈ it.keys, k ∈ allowed := by
  simp [itemKeysOkB, List.all_eq_true]

theorem regKeysOkB_iff (reg : Registry) :
    regKeysOkB reg = true ↔
      ∀ p ∈ reg, ∀ it ∈ p.2.items, ∀ k ∈ ValObj.keys it,
        k ∈ allowedKeysAmended p.2.fields := by
  simp [regKeysOkB, srcKeysOkB, itemKeysOkB, List.all_eq_true]

theorem mem_allowed_of_field {fields : List String} {k : String} (h : k ∈ fields) :
    k ∈ allowedKeysAmended fields :=
  List.mem_append.mpr (Or.inl h)

theorem mem_allowed_const {fields : List String} {k : String}
    (h : k ∈ ["id", "auto_generated", "_remove_after_simulation", "name", "location", "value"]) :
    k ∈ allowedKeysAmended fields :=
  List.mem_append.mpr (Or.inr h)

theorem autoItem_keys (label location status newId : String) :
    (autoItem label location status newId).keys =
      ["id", "name", "location", "value", "auto_generated"] := rfl

theorem focUpdate_elems (location status : String) (items : List ValObj) :
    ∀ it1 items2, focUpdate location status items = some (it1, items2) →
      ∀ it ∈ items2, it ∈ items ∨ ∃ it0 ∈ items, it = it0.set "value" (.vStr status) := by
  induction items with
  | nil => intro it1 items2 h; exact absurd h (by simp [focUpdate])
  | cons ith rest ih =>
    intro it1 items2 h
    rw [focUpdate] at h
    by_cases hm : locMatches location ith
    · rw [if_pos hm] at h
      obtain ⟨h1, h2⟩ := Prod.mk.inj (Option.some.inj h)
      subst h2
      intro it hit
      rcases List.mem_cons.mp hit with h3 | h3
      · exact Or.inr ⟨ith, by simp, h3⟩
      · exact Or.inl (by simp [h3])
    · rw [if_neg hm] at h
      rcases hf : focUpdate location status rest with _ | ⟨p1, p2⟩
      · rw [hf] at h
        exact absurd h (by simp)
      · rw [hf, Option.map_some'] at h
        obtain ⟨h1, h2⟩ := Prod.mk.inj (Option.some.inj h)
        subst h2
        intro it hit
        rcases List.mem_cons.mp hit with h3 | h3
        · exact Or.inl (by simp [h3])
        · rcases ih p1 p2 hf it h3 with h4 | ⟨it0, h5, h6⟩
          · exact Or.inl (by simp [h4])
          · exact Or.inr ⟨it0, by simp [h5], h6⟩

theorem fca_elems (pfx label : String) (items : List ValObj) (location status : String)
    (it1 : ValObj) (items2 : List ValObj)
    (h : find_or_create_auto pfx label items location status = some (it1, items2)) :
    ∀ it ∈ items2, it ∈ items ∨ (∃ it0 ∈ items, it = it0.set "value" (.vStr status)) ∨
      ∃ newId, it = autoItem label location status newId := by
  unfold find_or_create_auto at h
  rcases hf : focUpdate location status items with _ | ⟨p1, p2⟩
  · rw [hf] at h
    rcases halloc : allocId pfx items with _ | newId
    · rw [halloc] at h
      exact absurd h (by simp)
    · rw [halloc] at h
      dsimp only at h
      obtain ⟨h1, h2⟩ := Prod.mk.inj (Option.some.inj h)
      subst h2
      intro it hit
      rcases List.mem_append.mp hit with h3 | h3
      · exact Or.inl h3
      · simp only [List.mem_singleton] at h3
        exact Or.inr (Or.inr ⟨newId, h3⟩)
  · rw [hf] at h
    dsimp only at h
    obtain ⟨h1, h2⟩ := Prod.mk.inj (Option.some.inj h)
    subst h2
    intro it hit
    rcases focUpdate_elems location status items p1 p2 hf it hit with h3 | ⟨it0, h4, h5⟩
    · exact Or.inl h3
    · exact Or.inr (Or.inl ⟨it0, h4, h5⟩)

theorem applyAuto_keys (reg : Registry) (srcName pfx label location status : String)
    (h : ∀ p ∈ reg, ∀ it ∈ p.2.items, ∀ k ∈ ValObj.keys it,
        k ∈ allowedKeysAmended p.2.fields) :
    ∀ p ∈ applyAuto reg srcName pfx label location status,
      ∀ it ∈ p.2.items, ∀ k ∈ ValObj.keys it, k ∈ allowedKeysAmended p.2.fields := by
  unfold applyAuto
  rcases hl : lookupSrc reg srcName with _ | s
  · exact h
  · dsimp only
    rcases hfca : find_or_create_auto pfx label s.items location status with _ | ⟨it1, items2⟩
    · exact h
    · dsimp only
      intro p hp
      rcases setSrc_mem reg srcName _ p hp with hpe | hpm
      · subst hpe
        intro it hit k hk
        rcases fca_elems pfx label s.items location status it1 items2 hfca it hit with
          h3 | ⟨it0, h4, h5⟩ | ⟨newId, h5⟩
        · exact h (srcName, s) (lookupSrc_mem reg srcName s hl) it h3 k hk
        · subst h5
          rcases ValObj.keys_set it0 "value" (.vStr status) k hk with h6 | h6
          · exact mem_allowed_const (by simp [h6])
          · exact h (srcName, s) (lookupSrc_mem reg srcName s hl) it0 h4 k h6
        · subst h5
          rw [autoItem_keys] at hk
          fin_cases hk <;> exact mem_allowed_const (by simp)
      · exact h p hpm

/-- C3 counterexample: on the migrated default `Motion_Sensor_Alert` source,
a single auto-generation step produces an item whose key set (it contains
`name` and `value`) is not a subset of
`fields ∪ {id, auto_generated, _remove_after_simulation}`. -/
theorem item_keys_spec_counterexample :
    regKeysOkSpecB c3Reg = true ∧
    regKeysOkSpecB (stepOp c3Reg (.motionAuto "Corridor 1" "Detected")) = false := by
  exact ⟨by decide, by decide⟩

/-- C3 amended: across every operation (explicit item add, sensor
auto-generation, confirm/discard, cleanup), every item's key set stays inside
`fields ∪ {id, auto_generated, _remove_after_simulation, name, location,
value}` — the three extra keys being the fixed ones sensor auto-generation
writes. -/
theorem item_keys_invariant (reg : Registry) (op : SimOp)
    (h : regKeysOkB reg = true) : regKeysOkB (stepOp reg op) = true := by
  rw [regKeysOkB_iff] at h ⊢
  cases op with
  | addItem name inputs =>
    dsimp only [stepOp]
    rcases hl : lookupSrc reg name with _ | s
    · exact h
    · dsimp only
      rcases ha : add_item_to_source name s inputs with _ | ⟨pit, s2⟩
      · exact h
      · dsimp only
        unfold add_item_to_source at ha
        rcases hc : collectDetails s inputs s.fields .nil with _ | details
        · rw [hc] at ha
          exact absurd ha (by simp)
        · rw [hc] at ha
          rcases hal : allocId (strUpper (strTake name 3)) s.items with _ | newId
          · rw [hal] at ha
            exact absurd ha (by simp)
          · rw [hal] at ha
            dsimp only at ha
            obtain ⟨h1, h2⟩ := Prod.mk.inj (Option.some.inj ha)
            subst h2
            intro p hp
            rcases setSrc_mem reg name _ p hp with hpe | hpm
            · subst hpe
              intro it hit k hk
              rcases List.mem_append.mp hit with h3 | h3
              · exact h (name, s) (lookupSrc_mem reg name s hl) it h3 k hk
              · simp only [List.mem_singleton] at h3
                subst h3
                rcases objUnion_keys details (.cons "id" (.vStr newId) .nil) k hk with h4 | h4
                · simp only [ValObj.keys, List.mem_singleton] at h4
                  exact mem_allowed_const (by simp [h4])
                · rcases collectDetails_keys s inputs s.fields .nil details hc k h4 with h5 | h5
                  · simp [ValObj.keys] at h5
                  · exact mem_allowed_of_field h5
            · exact h p hpm
  | motionAuto location status =>
    exact applyAuto_keys reg "Motion_Sensor_Alert" "MOT" "Motion Sensor at " location status h
  | irAuto location status =>
    exact applyAuto_keys reg "IR_Sensor_Alert" "IR" "IR Sensor at " location status h
  | confirmDiscard name keep =>
    dsimp only [stepOp]
    rcases hl : lookupSrc reg name with _ | s
    · exact h
    · dsimp only
      intro p hp
      rcases setSrc_mem reg name _ p hp with hpe | hpm
      · subst hpe
        intro it hit k hk
        rcases List.mem_map.mp hit with ⟨it0, h0, h1⟩
        subst h1
        by_cases hauto : truthyGet it0 "auto_generated"
        · rw [if_pos hauto] at hk
          by_cases hkeep : keep it0
          · rw [if_pos hkeep] at hk
            exact h (name, s) (lookupSrc_mem reg name s hl) it0 h0 k
              (ValObj.keys_pop it0 "auto_generated" k hk)
          · rw [if_neg hkeep] at hk
            rcases ValObj.keys_set it0 "_remove_after_simulation" (.vBool true) k hk with h2 | h2
            · exact mem_allowed_const (by simp [h2])
            · exact h (name, s) (lookupSrc_mem reg name s hl) it0 h0 k h2
        · rw [if_neg hauto] at hk
          exact h (name, s) (lookupSrc_mem reg name s hl) it0 h0 k hk
      · exact h p hpm
  | cleanup =>
    intro p hp
    rcases List.mem_map.mp hp with ⟨p0, h0, h1⟩
    subst h1
    intro it hit k hk
    exact h p0 h0 it (List.mem_filter.mp hit).1 k hk

/-- C3 amended witness: the amended invariant holds on the concrete registry
and is preserved by a concrete auto-generation step. -/
theorem item_keys_invariant_witness :
    regKeysOkB (stepOp c3Reg (.motionAuto "Corridor 1" "Detected")) = true :=
  item_keys_invariant c3Reg (.motionAuto "Corridor 1" "Detected") (by decide)

/-! ### C6: legacy migration on construction -/

theorem listLookup_eq_none {α : Type} : ∀ (L : List (String × α)) (k : String),
    k ∉ L.map Prod.fst → listLookup L k = none := by
  intro L
  induction L with
  | nil => intro k h; rfl
  | cons kv rest ih =>
    intro k h
    obtain ⟨k1, v1⟩ := kv
    simp only [List.map_cons, List.mem_cons, not_or] at h
    rw [listLookup, if_neg (fun he => h.1 he.symm)]
    exact ih k h.2

theorem listLookup_mem {α : Type} : ∀ (L : List (String × α)) (k : String) (v : α),
    listLookup L k = some v → (k, v) ∈ L := by
  intro L
  induction L with
  | nil => intro k v h; exact Option.noConfusion h
  | cons kv rest ih =>
    intro k v h
    obtain ⟨k1, v1⟩ := kv
    by_cases hk : k1 = k
    · rw [listLookup, if_pos hk] at h
      subst hk
      have hv := Option.some.inj h
      subst hv
      exact List.mem_cons_self _ _
    · rw [listLookup, if_neg hk] at h
      exact List.mem_cons_of_mem _ (ih k v h)

theorem lookup_setSrc_ne : ∀ (reg : Registry) (name k : String) (s : Source), k ≠ name →
    lookupSrc (setSrc reg name s) k = lookupSrc reg k := by
  intro reg
  induction reg with
  | nil =>
    intro name k s h
    simp [setSrc, lookupSrc, Ne.symm h]
  | cons q rest ih =>
    intro name k s h
    obtain ⟨k1, v1⟩ := q
    by_cases h1 : k1 = name
    · rw [setSrc, if_pos h1, lookupSrc, lookupSrc,
         if_neg (by rw [h1]; exact Ne.symm h), if_neg (by rw [h1]; exact Ne.symm h)]
    · rw [setSrc, if_neg h1]
      by_cases h2 : k1 = k
      · rw [lookupSrc, lookupSrc, if_pos h2, if_pos h2]
      · rw [lookupSrc, lookupSrc, if_neg h2, if_neg h2]
        exact ih name k s h

theorem map_fst_setSrc : ∀ (reg : Registry) (name : String) (s : Source),
    (lookupSrc reg name).isSome → (setSrc reg name s).map Prod.fst = reg.map Prod.fst := by
  intro reg
  induction reg with
  | nil => intro name s h; simp [lookupSrc] at h
  | cons q rest ih =>
    intro name s h
    obtain ⟨k1, v1⟩ := q
    by_cases h1 : k1 = name
    · rw [setSrc, if_pos h1]
      simp [List.map_cons]
    · rw [setSrc, if_neg h1]
      rw [lookupSrc, if_neg h1] at h
      simp [List.map_cons, ih name s h]

theorem absorb_names : ∀ (L : List (String × List ValObj)) (r : Registry),
    (absorbLegacyItems r L).map Prod.fst = r.map Prod.fst := by
  intro L
  induction L with
  | nil => intro r; rfl
  | cons kv rest ih =>
    intro r
    rw [absorbLegacyItems]
    rcases hl : lookupSrc r kv.1 with _ | s
    · exact ih r
    · dsimp only
      rw [ih, map_fst_setSrc r kv.1 _ (by rw [hl]; rfl)]

theorem lookupSrc_mapKD (g : String → Source → Source) : ∀ (reg : Registry) (et : String),
    lookupSrc (reg.map (fun p => (p.1, g p.1 p.2))) et = (lookupSrc reg et).map (g et) := by
  intro reg
  induction reg with
  | nil => intro et; rfl
  | cons q rest ih =>
    intro et
    obtain ⟨k1, v1⟩ := q
    by_cases h1 : k1 = et
    · subst h1
      simp [lookupSrc]
    · simp [lookupSrc, h1, ih]

theorem absorb_lookup : ∀ (L : List (String × List ValObj)) (r : Registry) (et : String),
    (L.map Prod.fst).Nodup →
    lookupSrc (absorbLegacyItems r L) et =
      (lookupSrc r et).map (fun s =>
        match listLookup L et with
        | some v => { s with items := v }
        | none => s) := by
  intro L
  induction L with
  | nil =>
    intro r et hnd
    rw [absorbLegacyItems]
    cases lookupSrc r et <;> rfl
  | cons kv rest ih =>
    intro r et hnd
    obtain ⟨k1, v1⟩ := kv
    simp only [List.map_cons, List.nodup_cons] at hnd
    obtain ⟨hk1, hrest⟩ := hnd
    rw [absorbLegacyItems, ih _ et hrest]
    by_cases hek : et = k1
    · subst hek
      have hre : listLookup rest et = none := listLookup_eq_none rest et hk1
      have h1 : listLookup ((et, v1) :: rest) et = some v1 := by
        rw [listLookup, if_pos rfl]
      rw [hre, h1]
      dsimp only
      rcases hlr : lookupSrc r et with _ | s0
      · dsimp only
        rw [hlr]
        rfl
      · dsimp only
        rw [lookup_setSrc_self]
        rfl
    · have h1 : listLookup ((k1, v1) :: rest) et = listLookup rest et := by
        rw [listLookup, if_neg (Ne.symm hek)]
      rw [h1]
      congr 1
      rcases hlk : lookupSrc r k1 with _ | s1
      · rfl
      · dsimp only
        exact lookup_setSrc_ne r k1 et _ hek

theorem migrateSettingsGo_get_reserved : ∀ (entries acc : ValObj) (k : String),
    k ∈ reservedMigrationKeys → (migrateSettingsGo entries acc).get k = acc.get k
| .nil, acc, k, h => rfl
| .cons k1 v1 rest, acc, k, h => by
  rw [migrateSettingsGo]
  by_cases h1 : k1 ∈ reservedMigrationKeys
  · rw [if_pos h1]
    exact migrateSettingsGo_get_reserved rest acc k h
  · rw [if_neg h1, migrateSettingsGo_get_reserved rest _ k h]
    exact ValObj.get_set_ne acc k1 k v1 (fun he => h1 (he ▸ h))

theorem migrateSettingsGo_get : ∀ (entries acc : ValObj) (k : String),
    (ValObj.keys entries).Nodup → k ∉ reservedMigrationKeys →
    (migrateSettingsGo entries acc).get k =
      (match entries.get k with
       | some v => some v
       | none => acc.get k)
| .nil, acc, k, hnd, hk => rfl
| .cons k1 v1 rest, acc, k, hnd, hk => by
  have hnd2 := List.nodup_cons.mp (by simpa [ValObj.keys] using hnd)
  rw [migrateSettingsGo]
  by_cases hek : k1 = k
  · subst hek
    rw [if_neg hk, migrateSettingsGo_get rest _ k1 hnd2.2 hk,
        ValObj.get_none_of_not_mem rest k1 hnd2.1]
    dsimp only
    rw [ValObj.get_set_self]
    rw [ValObj.get, if_pos rfl]
  · by_cases h1 : k1 ∈ reservedMigrationKeys
    · rw [if_pos h1, migrateSettingsGo_get rest acc k hnd2.2 hk, ValObj.get, if_neg hek]
    · rw [if_neg h1, migrateSettingsGo_get rest _ k hnd2.2 hk, ValObj.get, if_neg hek]
      rcases hrg : ValObj.get rest k with _ | v
      · dsimp only
        exact ValObj.get_set_ne acc k1 k v1 hek
      · rfl

theorem applyLegacyPerType_spec (cfg : ConfigDoc) (et : String) (base : Source)
    (hb2 : base.thresholds = .nil) (hb3 : base.settings = .nil)
    (hndP : ∀ p ∈ cfg.legacyPerType, (ValObj.keys p.2).Nodup) :
    (applyLegacyPerType cfg et base).fields = base.fields ∧
    (applyLegacyPerType cfg et base).items = base.items ∧
    (listLookup cfg.legacyPerType et = none →
      (applyLegacyPerType cfg et base).thresholds = .nil ∧
      (applyLegacyPerType cfg et base).settings = .nil) ∧
    (∀ entries, listLookup cfg.legacyPerType et = some entries →
      (∀ o, entries.get "thresholds" = some (.vObj o) →
        (applyLegacyPerType cfg et base).thresholds = o) ∧
      (entries.get "thresholds" = none →
        (applyLegacyPerType cfg et base).thresholds = .nil) ∧
      (∀ k, k ∉ reservedMigrationKeys →
        (applyLegacyPerType cfg et base).settings.get k = entries.get k) ∧
      (∀ k, k ∈ reservedMigrationKeys →
        (applyLegacyPerType cfg et base).settings.get k = none)) := by
  unfold applyLegacyPerType
  rcases hlp : listLookup cfg.legacyPerType et with _ | entries
  · exact ⟨rfl, rfl, fun _ => ⟨hb2, hb3⟩, fun e he => absurd he (by simp)⟩
  · dsimp only
    refine ⟨rfl, rfl, fun he => absurd he (by simp), ?_⟩
    intro entries2 he2
    have heq := Option.some.inj he2
    subst heq
    have hnd_e := hndP (et, entries) (listLookup_mem cfg.legacyPerType et entries hlp)
    refine ⟨?_, ?_, ?_, ?_⟩
    · intro o ho
      rw [ho]
    · intro hno
      rw [hno]
      exact hb2
    · intro k hk
      rw [hb3, migrateSettingsGo_get entries .nil k hnd_e hk]
      rcases hg : entries.get k with _ | v
      · rfl
      · rfl
    · intro k hk
      rw [hb3, migrateSettingsGo_get_reserved entries .nil k hk]
      rfl

/-- C6: on construction, a document with an absent or empty `alert_sources`
mapping is migrated exactly once and saved immediately: the six historical
event types each get a source with their hardcoded default field list, any
legacy per-type item lists are copied in, a legacy per-type `thresholds`
mapping is moved verbatim, and every other non-reserved per-type key lands in
that source's settings.  A non-empty `alert_sources` suppresses the migration
entirely. -/
theorem legacy_migration (cfg : ConfigDoc)
    (hndI : (cfg.legacyItems.map Prod.fst).Nodup)
    (hndP : ∀ p ∈ cfg.legacyPerType, (ValObj.keys p.2).Nodup) :
    (cfg.alert_sources ≠ [] → initSim cfg = (cfg.alert_sources, false)) ∧
    (cfg.alert_sources = [] →
      (initSim cfg).2 = true ∧
      (initSim cfg).1.map Prod.fst = get_valid_event_types ∧
      ∀ et ∈ get_valid_event_types, ∃ s,
        lookupSrc (initSim cfg).1 et = some s ∧
        s.fields = default_fields et ∧
        s.items = (listLookup cfg.legacyItems et).getD [] ∧
        (listLookup cfg.legacyPerType et = none →
          s.thresholds = .nil ∧ s.settings = .nil) ∧
        (∀ entries, listLookup cfg.legacyPerType et = some entries →
          (∀ o, entries.get "thresholds" = some (.vObj o) → s.thresholds = o) ∧
          (entries.get "thresholds" = none → s.thresholds = .nil) ∧
          (∀ k, k ∉ reservedMigrationKeys → s.settings.get k = entries.get k) ∧
          (∀ k, k ∈ reservedMigrationKeys → s.settings.get k = none))) := by
  constructor
  · intro hne
    unfold initSim
    rw [if_neg (by simpa [List.isEmpty_iff] using hne)]
  · intro he
    unfold initSim
    rw [if_pos (by simp [he, List.isEmpty_iff])]
    refine ⟨rfl, ?_, ?_⟩
    · unfold migrate
      rw [List.map_map]
      have h1 : ((absorbLegacyItems migrationBase cfg.legacyItems).map
          (Prod.fst ∘ fun p => (p.1, applyLegacyPerType cfg p.1 p.2))) =
          (absorbLegacyItems migrationBase cfg.legacyItems).map Prod.fst :=
        List.map_congr_left (fun a _ => rfl)
      rw [h1, absorb_names]
      rfl
    · intro et hmem
      have hlook : lookupSrc (migrate cfg) et =
          ((lookupSrc migrationBase et).map (fun s =>
            match listLookup cfg.legacyItems et with
            | some v => { s with items := v }
            | none => s)).map (applyLegacyPerType cfg et) := by
        unfold migrate
        rw [lookupSrc_mapKD (applyLegacyPerType cfg) _ et,
            absorb_lookup cfg.legacyItems migrationBase et hndI]
      have hbase : lookupSrc migrationBase et =
          some { fields := default_fields et, thresholds := .nil, settings := .nil,
                 items := [] } := by
        fin_cases hmem <;> rfl
      rw [hlook, hbase, Option.map_some', Option.map_some']
      rcases hli : listLookup cfg.legacyItems et with _ | v
      · dsimp only
        obtain ⟨hf, hi, hnone, hsome⟩ := applyLegacyPerType_spec cfg et
          { fields := default_fields et, thresholds := .nil, settings := .nil, items := [] }
          rfl rfl hndP
        exact ⟨_, rfl, hf, hi, hnone, hsome⟩
      · dsimp only
        obtain ⟨hf, hi, hnone, hsome⟩ := applyLegacyPerType_spec cfg et
          { fields := default_fields et, thresholds := .nil, settings := .nil, items := v }
          rfl rfl hndP
        exact ⟨_, rfl, hf, hi, hnone, hsome⟩

/-- C6 witness: a concrete legacy document with no `alert_sources`, one
legacy SIEM item list and one legacy SIEM per-type dict migrates and saves. -/
theorem legacy_migration_witness :
    (initSim c6Cfg).2 = true ∧ (initSim c6Cfg).1.map Prod.fst = get_valid_event_types :=
  ⟨((legacy_migration c6Cfg (by decide) (by decide)).2 rfl).1,
   ((legacy_migration c6Cfg (by decide) (by decide)).2 rfl).2.1⟩
